import Mathlib

/-!
Shallow embedding of the throbbers-server voting backend (src/index.js):
the sanitization function, artist-name resolution, the /record-votes,
/artist-info and /throb-count handlers, modelled over explicit key-value
store and spreadsheet states.
-/

/-- Characters replaced by the sanitizer: the regex class `[.#$/\[\]]`. -/
def isUnsafeChar (c : Char) : Bool :=
  c = '.' || c = '#' || c = '$' || c = '/' || c = '[' || c = ']'

/-- One character of the global replace of the unsafe class with an underscore. -/
def safeKeyChar (c : Char) : Char :=
  if isUnsafeChar c then '_' else c

/-- `safeKey(name)`: replace every Firebase-unsafe character with an underscore. -/
def safeKey (s : String) : String :=
  ⟨s.data.map safeKeyChar⟩

/-- JSON values as parsed by the express.json body parser: the possible
shapes of request-body fields such as `artist` and `votes`. -/
inductive JsVal where
  | str (s : String)
  | num (n : Int)
  | bool (b : Bool)
  | null
  | arr (elems : List JsVal)
  | obj (fields : List (String × JsVal))

def JsVal.isNull : JsVal → Bool
  | .null => true
  | _ => false

/-- JavaScript truthiness of a JSON value (`!v` is `false` exactly when
`truthy v`). -/
def truthy : JsVal → Bool
  | .str s => s ≠ ""
  | .num n => n ≠ 0
  | .bool b => b
  | .null => false
  | .arr _ => true
  | .obj _ => true

/-- Whether the JavaScript typeof operator answers object for `v`: true for
plain objects, arrays and `null`. -/
def typeofIsObject : JsVal → Bool
  | .null => true
  | .arr _ => true
  | .obj _ => true
  | _ => false

/-- Enumerable own properties of a JSON value, as seen by `user in votes`
and `votes[user]`: object fields, or index keys for an array; primitives
have none. -/
def jsFields : JsVal → List (String × JsVal)
  | .obj fs => fs
  | .arr xs => xs.enum.map (fun p => (toString p.1, p.2))
  | _ => []

/-- JavaScript ToString coercion, as used by the template literal
`votes/${safeArtist}` (array elements that are null join as the empty
string). -/
def jsValJoin : JsVal → String
  | .str s => s
  | .num n => toString n
  | .bool b => if b then "true" else "false"
  | .null => "null"
  | .obj _ => "[object Object]"
  | .arr xs => String.intercalate "," (xs.attach.map (fun p =>
      if p.1.isNull then "" else jsValJoin p.1))
decreasing_by
  have := List.sizeOf_lt_of_mem p.2
  cases p
  simp_all
  omega

/-- Whitespace recognised by String.prototype.trim (ASCII portion). -/
def isSpaceChar (c : Char) : Bool :=
  c = ' ' || c = '\t' || c = '\n' || c = '\r'

/-- JavaScript `s.trim()`. -/
def jsTrim (s : String) : String :=
  ⟨((s.data.dropWhile isSpaceChar).reverse.dropWhile isSpaceChar).reverse⟩

/-- One character of String.prototype.toLowerCase (ASCII portion). -/
def toLowerChar (c : Char) : Char :=
  if 65 ≤ c.toNat ∧ c.toNat ≤ 90 then Char.ofNat (c.toNat + 32) else c

/-- JavaScript `s.toLowerCase()`. -/
def jsToLower (s : String) : String :=
  ⟨s.data.map toLowerChar⟩

/-- An entry of the persisted `artistOrder` array: the server itself writes
plain safeKey strings, while some revisions store `{safe, original}`
objects; `getOriginalArtistName` accepts both. -/
inductive OrderEntry where
  | str (s : String)
  | obj (safe : String) (original : Option String)
deriving DecidableEq

/-- The predicate of the find call over `artistOrder`: an entry of object
type whose safe field equals `safeKeyName`. -/
def entryMatches (k : String) : OrderEntry → Bool
  | .obj safe _ => safe = k
  | .str _ => false

/-- The `found?.original`-when-truthy part of `getOriginalArtistName`:
the original of the first object entry whose safe field is `k`, when that
original is present and non-empty. -/
def firstObjOriginal (k : String) (order : List OrderEntry) : Option String :=
  match order.find? (entryMatches k) with
  | some (.obj _ (some o)) => if o = "" then none else some o
  | _ => none

/-- The `artistNames[safeKeyName] || safeKeyName` fallback: a falsy
(absent or empty) map value yields the safeKey itself. -/
def jsOrName (names : List (String × String)) (k : String) : String :=
  match names.lookup k with
  | some v => if v = "" then k else v
  | none => k

/-- `getOriginalArtistName(safeKeyName, artistOrder)` with the persisted
`artistNames` map passed explicitly in place of the database read. -/
def getOriginalArtistName (k : String) (order : List OrderEntry)
    (names : List (String × String)) : String :=
  match firstObjOriginal k order with
  | some o => o
  | none => jsOrName names k

/-- Insertion step of a comparator-driven stable sort. -/
def insertCmp (cmp : α → α → Bool) (a : α) : List α → List α
  | [] => [a]
  | b :: bs => if cmp a b then a :: b :: bs else b :: insertCmp cmp a bs

/-- Comparator-driven stable sort, modelling `Array.prototype.sort(cmp)`
(the engine algorithm is unspecified; any comparison sort produces a
rearrangement, which is what the development relies on). -/
def sortCmp (cmp : α → α → Bool) : List α → List α
  | [] => []
  | a :: as => insertCmp cmp a (sortCmp cmp as)

/-- Code-unit comparison of two strings, as used by the default
`Array.prototype.sort()` comparator on the participant roster. -/
def strLtList : List Char → List Char → Bool
  | [], [] => false
  | [], _ :: _ => true
  | _ :: _, [] => false
  | a :: as, b :: bs =>
    if a.toNat < b.toNat then true
    else if b.toNat < a.toNat then false
    else strLtList as bs

def strLeB (a b : String) : Bool := !(strLtList b.data a.data)

/-- First-occurrence deduplication, modelling the keys of the spread-merged
object `{ ...guestList, ...hostList }`. -/
def dedupKeys : List String → List String
  | [] => []
  | a :: as => a :: (dedupKeys as).filter (fun b => b ≠ a)

/-- `Object.keys({ ...guestList, ...hostList }).sort()`: the deduplicated,
sorted participant roster. -/
def allUsers (guests host : List String) : List String :=
  sortCmp strLeB (dedupKeys (guests ++ host))

/-- The record persisted at `votes/${safeArtist}`. -/
structure VoteRecord where
  originalName : String
  votes : List (String × JsVal)
  timestamp : String

/-- The key-value store paths the handlers touch: `artistOrder` (absent or
non-array modelled as none), `artistNames`, the key sets of `guests` and
`host`, and the per-artist `votes/...` records. -/
structure KV where
  artistOrder : Option (List OrderEntry)
  artistNames : List (String × String)
  guests : List String
  host : List String
  votes : List (String × VoteRecord)

/-- The state /record-votes reads and writes: the key-value store plus the
rows of the VOTES sheet. -/
structure RVState where
  kv : KV
  rows : List (List JsVal)

/-- `k in m` for a JavaScript object modelled as an insertion-ordered
association list. -/
def keyMem (m : List (String × α)) (k : String) : Bool :=
  m.any (fun p => p.1 = k)

/-- `m[k] = v` on a JavaScript object: overwrite in place if the key
exists, else append preserving insertion order. -/
def setKey (m : List (String × α)) (k : String) (v : α) : List (String × α) :=
  if keyMem m k then m.map (fun p => if p.1 = k then (k, v) else p)
  else m ++ [(k, v)]

/-- The roster-filling loop: every roster member absent from `votes` is
assigned the default vote no. -/
def fillVotes (users : List String) (votes : List (String × JsVal)) :
    List (String × JsVal) :=
  users.foldl (fun vs u => if keyMem vs u then vs else vs ++ [(u, JsVal.str "no")]) votes

/-- The outbound calls of /record-votes, in program order; a run may be
directed to fail at one of them. -/
inductive FailPoint where
  | readOrder | readNames | readRoster | kvSet | sheetGet | headerUpdate | append
deriving DecidableEq

/-- The three responses /record-votes can produce: 200 `{success:true}`,
400 with the message Invalid payload, 500 with Failed to record votes. -/
inductive RVResp where
  | success
  | invalid
  | failure
deriving DecidableEq

/-- The expected header row: TIMESTAMP, ARTIST, then the sorted roster. -/
def headersFor (kv : KV) : List JsVal :=
  .str "TIMESTAMP" :: .str "ARTIST" :: (allUsers kv.guests kv.host).map .str

/-- `[timestamp, originalArtist, ...allUsers.map(name => votes[name])]`
(after roster filling every roster name is a key, so the `.null` default
standing for undefined is never reached on the handler path). -/
def rowFor (ts orig : String) (users : List String)
    (filled : List (String × JsVal)) : List JsVal :=
  .str ts :: .str orig :: users.map (fun u => (filled.lookup u).getD .null)

/-- The body of the /record-votes handler after payload validation, with
the clock passed in as `ts` and an optional injected failure `failAt`;
each outbound call either fails there (the catch block answers 500 with
the state mutated so far) or takes effect in program order. -/
def recordVotesAux (failAt : Option FailPoint) (ts artist : String)
    (votes : List (String × JsVal)) (st : RVState) : RVResp × RVState :=
  if failAt = some .readOrder then (.failure, st) else
  let order := st.kv.artistOrder.getD []
  let foundOrig := firstObjOriginal artist order
  if foundOrig = none ∧ failAt = some .readNames then (.failure, st) else
  let orig := match foundOrig with
    | some o => o
    | none => jsOrName st.kv.artistNames artist
  if failAt = some .readRoster then (.failure, st) else
  let users := allUsers st.kv.guests st.kv.host
  let filled := fillVotes users votes
  if failAt = some .kvSet then (.failure, st) else
  let st1 : RVState :=
    { st with kv := { st.kv with votes := setKey st.kv.votes artist ⟨orig, filled, ts⟩ } }
  if failAt = some .sheetGet then (.failure, st1) else
  if st1.rows.isEmpty then
    if failAt = some .headerUpdate then (.failure, st1) else
    let st2 : RVState := { st1 with rows := [headersFor st1.kv] }
    if failAt = some .append then (.failure, st2)
    else (.success, { st2 with rows := st2.rows ++ [rowFor ts orig users filled] })
  else
    if failAt = some .append then (.failure, st1)
    else (.success, { st1 with rows := st1.rows ++ [rowFor ts orig users filled] })

/-- The validation guard: reject when the artist value is falsy, or the
votes value is falsy or not of object type. -/
def validPayload (body : List (String × JsVal)) : Bool :=
  (match body.lookup "artist" with | some a => truthy a | none => false) &&
  (match body.lookup "votes" with | some v => truthy v && typeofIsObject v | none => false)

/-- The full /record-votes handler on a parsed JSON body. -/
def recordVotes (failAt : Option FailPoint) (ts : String)
    (body : List (String × JsVal)) (st : RVState) : RVResp × RVState :=
  if validPayload body then
    recordVotesAux failAt ts (jsValJoin ((body.lookup "artist").getD .null))
      (jsFields ((body.lookup "votes").getD .null)) st
  else (.invalid, st)

/-- One parsed row of the ARTISTS sheet. -/
structure ArtistRow where
  artist : String
  safe : String
  tracks : List (String × String)
deriving DecidableEq

/-- Track extraction for one row: columns 1..5 are names, 6..10 the
matching urls; a pair is kept when both trim to non-empty strings. -/
def tracksOf (row : List String) : List (String × String) :=
  (List.range 5).filterMap (fun j =>
    match row.get? (j + 1), row.get? (j + 6) with
    | some n0, some u0 =>
      let n := jsTrim n0
      let u := jsTrim u0
      if n ≠ "" ∧ u ≠ "" then some (n, u) else none
    | _, _ => none)

inductive FetchErr where
  | noData
  | badHeader
deriving DecidableEq

/-- `fetchGoogleSheet` on the fetched ARTISTS!B1:L rows: demand at least a
header and one data row, demand the header cell trims to ARTIST, then keep
one ArtistRow per data row whose first cell trims to a non-empty name. -/
def fetchGoogleSheet (rows : List (List String)) : Except FetchErr (List ArtistRow) :=
  if rows.length < 2 then .error .noData
  else
    match (rows.headD []).get? 0 with
    | none => .error .badHeader
    | some h0 =>
      if jsTrim h0 ≠ "ARTIST" then .error .badHeader
      else .ok ((rows.drop 1).filterMap (fun row =>
        match row.get? 0 with
        | none => none
        | some a0 =>
          let artist := jsTrim a0
          if artist = "" then none
          else some ⟨artist, safeKey artist, tracksOf row⟩))

/-- The response body of /artist-info. -/
structure AIOut where
  order : List OrderEntry
  names : List (String × String)
  tracks : List (String × List (String × String))
deriving DecidableEq

/-- `artistNames[row.safe] = row.artist` over the fetched rows. -/
def buildNames (data : List ArtistRow) : List (String × String) :=
  data.foldl (fun m r => setKey m r.safe r.artist) []

/-- `trackMap[row.safe] = row.tracks` over the fetched rows. -/
def buildTracks (data : List ArtistRow) : List (String × List (String × String)) :=
  data.foldl (fun m r => setKey m r.safe r.tracks) []

inductive AIErr where
  | loadFailed
deriving DecidableEq

/-- `!artistOrder || !Array.isArray(artistOrder) || artistOrder.length === 0`. -/
def orderAbsentOrEmpty (kv : KV) : Bool :=
  match kv.artistOrder with
  | none => true
  | some l => l.isEmpty

/-- The /artist-info handler: build the name/track maps and the pushed key
list from the sheet, then either return the stored order or generate one
with the comparator `cmp` standing for `() => 0.5 - Math.random()` and
persist it together with the name map. -/
def artistInfo (cmp : String → String → Bool) (sheetRows : List (List String))
    (kv : KV) : Except AIErr AIOut × KV :=
  match fetchGoogleSheet sheetRows with
  | .error _ => (.error .loadFailed, kv)
  | .ok data =>
    let artistNames := buildNames data
    let artistList := data.map (·.safe)
    let trackMap := buildTracks data
    if orderAbsentOrEmpty kv then
      let newOrder := (sortCmp cmp artistList).map OrderEntry.str
      (.ok ⟨newOrder, artistNames, trackMap⟩,
        { kv with artistOrder := some newOrder, artistNames := artistNames })
    else
      (.ok ⟨kv.artistOrder.getD [], artistNames, trackMap⟩, kv)

/-- The three outcomes of /throb-count: 200 `{count}`, 400 for a missing
host parameter, 404 when no header column matches. -/
inductive ThrobResult where
  | count (n : Nat)
  | missingHost
  | hostNotFound
deriving DecidableEq

/-- Whether the cell of `row` in column `i` trims and lowercases to yes
(an absent cell is undefined, hence not a string, hence filtered out). -/
def isYesCell (i : Nat) (row : List String) : Bool :=
  match row.get? i with
  | some v => jsToLower (jsTrim v) = "yes"
  | none => false

/-- The /throb-count handler on the fetched VOTES!A1:Z rows (an absent
`host` query parameter is modelled as the empty string, the only falsy
string). -/
def throbCount (host : String) (rows : List (List String)) : ThrobResult :=
  if host = "" then .missingHost
  else
    match (rows.headD []).indexOf? host with
    | none => .hostNotFound
    | some i => .count ((rows.drop 1).countP (isYesCell i))

def rvOrig (artist : String) (kv : KV) : String :=
  getOriginalArtistName artist (kv.artistOrder.getD []) kv.artistNames

def rvRecord (ts artist : String) (votes : List (String × JsVal)) (kv : KV) : VoteRecord :=
  ⟨rvOrig artist kv, fillVotes (allUsers kv.guests kv.host) votes, ts⟩

def rvSuccessState (ts artist : String) (votes : List (String × JsVal)) (st : RVState) : RVState :=
  ⟨{ st.kv with votes := setKey st.kv.votes artist (rvRecord ts artist votes st.kv) },
    (if st.rows.isEmpty then [headersFor st.kv] else st.rows)
      ++ [rowFor ts (rvOrig artist st.kv) (allUsers st.kv.guests st.kv.host)
            (fillVotes (allUsers st.kv.guests st.kv.host) votes)]⟩

theorem safeKeyChar_idem (c : Char) : safeKeyChar (safeKeyChar c) = safeKeyChar c := by
  unfold safeKeyChar isUnsafeChar
  by_cases h : (c = '.' || c = '#' || c = '$' || c = '/' || c = '[' || c = ']') = true
  · simp [h]
  · simp [h]

/-- C6: the sanitization function safeKey is idempotent: sanitizing an
already sanitized display name changes nothing. -/
theorem safeKey_idempotent (name : String) : safeKey (safeKey name) = safeKey name := by
  unfold safeKey
  simp only [List.map_map]
  congr 1
  exact List.map_congr_left (fun c _ => safeKeyChar_idem c)

theorem keyMem_iff_mem_keys (m : List (String × α)) (k : String) :
    keyMem m k = true ↔ k ∈ m.map Prod.fst := by
  simp [keyMem, List.any_eq_true, List.mem_map]

theorem keyMem_false_lookup (m : List (String × α)) (k : String)
    (h : keyMem m k = false) : m.lookup k = none := by
  induction m with
  | nil => rfl
  | cons p ps ih =>
    obtain ⟨a, b⟩ := p
    simp only [keyMem, List.any_cons, Bool.or_eq_false_iff, decide_eq_false_iff_not] at h
    have h1 : (k == a) = false := by
      simp only [beq_eq_false_iff_ne, ne_eq]
      exact fun hc => h.1 hc.symm
    simp only [List.lookup, h1]
    exact ih (by simpa [keyMem] using h.2)

theorem lookup_map_const (l : List String) (k : String) (c : α) :
    (l.map (fun u => (u, c))).lookup k = if k ∈ l then some c else none := by
  induction l with
  | nil => simp
  | cons a as ih =>
    by_cases h : k = a
    · subst h; simp [List.lookup]
    · have h1 : (k == a) = false := by simpa [beq_eq_false_iff_ne]
      simp [List.lookup, h1, ih, List.mem_cons, h]

theorem lookup_setKey_self (m : List (String × α)) (k : String) (v : α) :
    (setKey m k v).lookup k = some v := by
  unfold setKey
  by_cases h : keyMem m k = true
  · simp only [h, if_true]
    induction m with
    | nil => simp [keyMem] at h
    | cons p ps ih =>
      obtain ⟨a, b⟩ := p
      by_cases hp : a = k
      · subst hp
        have hmap : List.map (fun p : String × α => if p.1 = a then (a, v) else p) ((a, b) :: ps)
            = (a, v) :: List.map (fun p : String × α => if p.1 = a then (a, v) else p) ps := by
          simp
        rw [hmap]
        simp [List.lookup]
      · have h1 : (k == a) = false := by
          simp only [beq_eq_false_iff_ne, ne_eq]
          exact fun hc => hp hc.symm
        have h2 : keyMem ps k = true := by
          simpa [keyMem, List.any_cons, hp] using h
        have hmap : List.map (fun p : String × α => if p.1 = k then (k, v) else p) ((a, b) :: ps)
            = (a, b) :: List.map (fun p : String × α => if p.1 = k then (k, v) else p) ps := by
          simp [hp]
        rw [hmap]
        simp only [List.lookup, h1]
        exact ih h2
  · simp only [Bool.not_eq_true] at h
    simp only [h, Bool.false_eq_true, if_false]
    rw [List.lookup_append, keyMem_false_lookup _ _ h]
    simp [List.lookup]

theorem insertCmp_perm (cmp : α → α → Bool) (a : α) (l : List α) :
    (insertCmp cmp a l).Perm (a :: l) := by
  induction l with
  | nil => exact List.Perm.refl _
  | cons b bs ih =>
    unfold insertCmp
    by_cases h : cmp a b
    · simp [h]
    · simp only [h, Bool.false_eq_true, if_false]
      exact (ih.cons b).trans (List.Perm.swap a b bs)

theorem sortCmp_perm (cmp : α → α → Bool) (l : List α) :
    (sortCmp cmp l).Perm l := by
  induction l with
  | nil => exact List.Perm.refl _
  | cons a as ih =>
    exact (insertCmp_perm cmp a (sortCmp cmp as)).trans (ih.cons a)

theorem mem_dedupKeys {x : String} : ∀ {l : List String}, x ∈ dedupKeys l ↔ x ∈ l := by
  intro l
  induction l with
  | nil => simp [dedupKeys]
  | cons a as ih =>
    simp only [dedupKeys, List.mem_cons, List.mem_filter, ih, decide_eq_true_eq]
    by_cases h : x = a <;> simp [h]

theorem nodup_dedupKeys : ∀ (l : List String), (dedupKeys l).Nodup := by
  intro l
  induction l with
  | nil => simp [dedupKeys]
  | cons a as ih =>
    simp only [dedupKeys, List.nodup_cons]
    refine ⟨fun hmem => ?_, ih.filter _⟩
    simp [List.mem_filter] at hmem

theorem allUsers_nodup (g h : List String) : (allUsers g h).Nodup :=
  (sortCmp_perm strLeB (dedupKeys (g ++ h))).symm.nodup (nodup_dedupKeys _)

theorem fillVotes_eq (users : List String) (votes : List (String × JsVal))
    (hnd : users.Nodup) :
    fillVotes users votes =
      votes ++ (users.filter (fun u => !keyMem votes u)).map (fun u => (u, JsVal.str "no")) := by
  induction users generalizing votes with
  | nil => simp [fillVotes]
  | cons u us ih =>
    have hnd' : us.Nodup := hnd.of_cons
    have hu : u ∉ us := by simp [List.nodup_cons] at hnd; exact hnd.1
    show fillVotes us (if keyMem votes u then votes else votes ++ [(u, JsVal.str "no")]) = _
    by_cases h : keyMem votes u = true
    · rw [if_pos h, ih _ hnd']
      simp [List.filter_cons, h]
    · simp only [Bool.not_eq_true] at h
      rw [if_neg (by simp [h]), ih _ hnd']
      have hcong : us.filter (fun x => !keyMem (votes ++ [(u, JsVal.str "no")]) x)
          = us.filter (fun x => !keyMem votes x) := by
        apply List.filter_congr
        intro x hx
        have hxu : x ≠ u := fun hc => hu (hc ▸ hx)
        simp [keyMem, List.any_append, hxu, Ne.symm hxu]
      rw [hcong]
      simp [List.filter_cons, h, List.append_assoc]

theorem fillVotes_lookup_left (users : List String) (votes : List (String × JsVal))
    (hnd : users.Nodup) (k : String) (v : JsVal) (h : votes.lookup k = some v) :
    (fillVotes users votes).lookup k = some v := by
  rw [fillVotes_eq users votes hnd, List.lookup_append, h]
  rfl

theorem fillVotes_lookup_default (users : List String) (votes : List (String × JsVal))
    (hnd : users.Nodup) (u : String) (hu : u ∈ users) (hk : keyMem votes u = false) :
    (fillVotes users votes).lookup u = some (JsVal.str "no") := by
  rw [fillVotes_eq users votes hnd, List.lookup_append,
    keyMem_false_lookup _ _ hk, lookup_map_const]
  simp [List.mem_filter, hu, hk]

theorem fillVotes_lookup_outside (users : List String) (votes : List (String × JsVal))
    (hnd : users.Nodup) (e : String) (he : e ∉ users) :
    (fillVotes users votes).lookup e = votes.lookup e := by
  rw [fillVotes_eq users votes hnd, List.lookup_append, lookup_map_const]
  have hne : e ∉ users.filter (fun u => !keyMem votes u) := fun hc => he (List.mem_of_mem_filter hc)
  simp only [hne, if_false]
  cases votes.lookup e <;> rfl

theorem keyMem_true_lookup (m : List (String × α)) (k : String)
    (h : keyMem m k = true) : ∃ v, m.lookup k = some v := by
  induction m with
  | nil => simp [keyMem] at h
  | cons p ps ih =>
    obtain ⟨a, b⟩ := p
    by_cases hk : k = a
    · subst hk
      exact ⟨b, by simp [List.lookup]⟩
    · have h1 : (k == a) = false := by simpa [beq_eq_false_iff_ne]
      have h2 : keyMem ps k = true := by
        have hne : ¬ (a = k) := fun hc => hk hc.symm
        simpa [keyMem, List.any_cons, hne] using h
      simp only [List.lookup, h1]
      exact ih h2

theorem fillVotes_lookup_mem (users : List String) (votes : List (String × JsVal))
    (hnd : users.Nodup) (u : String) (hu : u ∈ users) :
    (fillVotes users votes).lookup u = some ((votes.lookup u).getD (JsVal.str "no")) := by
  cases h : keyMem votes u
  · rw [fillVotes_lookup_default users votes hnd u hu h, keyMem_false_lookup _ _ h]
    rfl
  · obtain ⟨v, hv⟩ := keyMem_true_lookup votes u h
    rw [fillVotes_lookup_left users votes hnd u v hv, hv]
    rfl

theorem fillVotes_length (users : List String) (votes : List (String × JsVal))
    (hnd : users.Nodup) (hkeys : (votes.map Prod.fst).Nodup)
    (hsub : ∀ k ∈ votes.map Prod.fst, k ∈ users) :
    (fillVotes users votes).length = users.length := by
  rw [fillVotes_eq users votes hnd, List.length_append, List.length_map]
  have hperm : (users.filter (fun u => keyMem votes u)).Perm (votes.map Prod.fst) := by
    apply (List.perm_ext_iff_of_nodup (hnd.filter _) hkeys).mpr
    intro x
    simp only [List.mem_filter]
    constructor
    · rintro ⟨-, hk⟩
      exact (keyMem_iff_mem_keys votes x).1 hk
    · intro hx
      exact ⟨hsub x hx, (keyMem_iff_mem_keys votes x).2 hx⟩
  have hlen := hperm.length_eq
  rw [List.length_map] at hlen
  have hsplit := @List.length_eq_length_filter_add _ users (fun u => keyMem votes u)
  have hvlen : (List.map Prod.fst votes).length = votes.length := List.length_map votes Prod.fst
  omega

theorem headersFor_votes (kv : KV) (v : List (String × VoteRecord)) :
    headersFor { kv with votes := v } = headersFor kv := rfl

theorem recordVotesAux_none_eq (ts artist : String) (votes : List (String × JsVal))
    (st : RVState) :
    recordVotesAux none ts artist votes st = (RVResp.success, rvSuccessState ts artist votes st) := by
  unfold recordVotesAux rvSuccessState rvRecord rvOrig getOriginalArtistName
  simp only [Option.some.injEq, reduceCtorEq, if_false, false_and, and_false]
  cases hrows : st.rows with
  | nil => simp [headersFor_votes]
  | cons r rs => simp [headersFor_votes]

theorem recordVotesAux_append_fail_eq (ts artist : String) (votes : List (String × JsVal))
    (st : RVState) :
    recordVotesAux (some FailPoint.append) ts artist votes st =
      (RVResp.failure,
        ⟨{ st.kv with votes := setKey st.kv.votes artist (rvRecord ts artist votes st.kv) },
         if st.rows.isEmpty then [headersFor st.kv] else st.rows⟩) := by
  unfold recordVotesAux rvRecord rvOrig getOriginalArtistName
  simp only [Option.some.injEq, reduceCtorEq, if_false, false_and, and_false]
  cases hrows : st.rows with
  | nil => simp [headersFor_votes]
  | cons r rs => simp [headersFor_votes]

/-- C5 counterexample: the order below contains an object entry with safe
equal to the key and the non-empty original X, yet resolution returns the
safeKey itself, because the find call stops at an earlier matching entry
whose original is absent; the claim as stated is false at this input. -/
theorem getOriginalArtistName_first_match_cex :
    OrderEntry.obj "k" (some "X") ∈ [OrderEntry.obj "k" none, OrderEntry.obj "k" (some "X")] ∧
    ("X" : String) ≠ "" ∧
    getOriginalArtistName "k" [OrderEntry.obj "k" none, OrderEntry.obj "k" (some "X")] [] = "k" ∧
    ("k" : String) ≠ "X" := by
  refine ⟨by decide, by decide, rfl, by decide⟩

/-- C5 amended: resolution inspects the FIRST object entry of the order
whose safe field equals the key; when its original is present and
non-empty that original is returned, otherwise a non-empty persisted name
map entry, otherwise the safeKey itself; resolve of sanitize recovers the
name under the corresponding first-match or map hypotheses. -/
theorem getOriginalArtistName_fallback :
    (∀ (k : String) (order : List OrderEntry) (names : List (String × String)) (o : String),
      firstObjOriginal k order = some o → getOriginalArtistName k order names = o) ∧
    (∀ (k : String) (order : List OrderEntry) (names : List (String × String)) (v : String),
      firstObjOriginal k order = none → names.lookup k = some v → v ≠ "" →
      getOriginalArtistName k order names = v) ∧
    (∀ (k : String) (order : List OrderEntry) (names : List (String × String)),
      firstObjOriginal k order = none →
      (names.lookup k = none ∨ names.lookup k = some "") →
      getOriginalArtistName k order names = k) ∧
    (∀ (name : String) (order : List OrderEntry) (names : List (String × String)),
      firstObjOriginal (safeKey name) order = some name →
      getOriginalArtistName (safeKey name) order names = name) ∧
    (∀ (name : String) (order : List OrderEntry) (names : List (String × String)),
      firstObjOriginal (safeKey name) order = none →
      names.lookup (safeKey name) = some name → name ≠ "" →
      getOriginalArtistName (safeKey name) order names = name) := by
  refine ⟨?_, ?_, ?_, ?_, ?_⟩
  · intro k order names o h
    unfold getOriginalArtistName
    rw [h]
  · intro k order names v h hv hne
    unfold getOriginalArtistName jsOrName
    rw [h, hv]
    simp [hne]
  · intro k order names h hv
    unfold getOriginalArtistName jsOrName
    rw [h]
    rcases hv with hv | hv
    · rw [hv]
    · rw [hv]
      simp
  · intro name order names h
    unfold getOriginalArtistName
    rw [h]
  · intro name order names h hv hne
    unfold getOriginalArtistName jsOrName
    rw [h, hv]
    simp [hne]

/-- Witness for C5: the fallback theorem applied to a concrete one-entry
order. -/
theorem getOriginalArtistName_fallback_witness :
    firstObjOriginal "k" [OrderEntry.obj "k" (some "Orig")] = some "Orig" ∧
    getOriginalArtistName "k" [OrderEntry.obj "k" (some "Orig")] [] = "Orig" :=
  ⟨rfl, getOriginalArtistName_fallback.1 "k" [OrderEntry.obj "k" (some "Orig")] [] "Orig" rfl⟩

/-- C7: /throb-count scans the header row for the column whose header
equals the host, counts the data-row cells of that column that trim and
lowercase to yes, answers 404 when no column matches, and on the ledger of
the claim returns count 2 for host X and not-found for host Z. -/
theorem throbCount_spec :
    (∀ (rows : List (List String)) (host : String) (i : Nat), host ≠ "" →
      (rows.headD []).indexOf? host = some i →
      throbCount host rows = ThrobResult.count ((rows.drop 1).countP (isYesCell i))) ∧
    (∀ (rows : List (List String)) (host : String), host ≠ "" →
      (rows.headD []).indexOf? host = none →
      throbCount host rows = ThrobResult.hostNotFound) ∧
    throbCount "X" [["TIMESTAMP", "ARTIST", "X", "Y"], ["t1", "a", "yes", "no"],
      ["t2", "b", "yes", "yes"]] = ThrobResult.count 2 ∧
    throbCount "Z" [["TIMESTAMP", "ARTIST", "X", "Y"], ["t1", "a", "yes", "no"],
      ["t2", "b", "yes", "yes"]] = ThrobResult.hostNotFound := by
  refine ⟨?_, ?_, rfl, rfl⟩
  · intro rows host i hh hidx
    unfold throbCount
    rw [if_neg hh, hidx]
  · intro rows host hh hidx
    unfold throbCount
    rw [if_neg hh, hidx]

/-- Witness for C7: the general counting branch applied to the concrete
ledger of the claim. -/
theorem throbCount_spec_witness :
    (([["TIMESTAMP", "ARTIST", "X", "Y"], ["t1", "a", "yes", "no"],
        ["t2", "b", "yes", "yes"]].headD ([] : List String)).indexOf? "X" = some 2) ∧
    throbCount "X" [["TIMESTAMP", "ARTIST", "X", "Y"], ["t1", "a", "yes", "no"],
        ["t2", "b", "yes", "yes"]]
      = ThrobResult.count (([["TIMESTAMP", "ARTIST", "X", "Y"], ["t1", "a", "yes", "no"],
          ["t2", "b", "yes", "yes"]].drop 1).countP (isYesCell 2)) :=
  ⟨by decide, throbCount_spec.1 _ "X" 2 (by decide) (by decide)⟩

/-- C9 counterexample: a payload whose votes value is a JSON array, which
is not a mapping, passes the typeof-based validation (arrays have object
type) and the handler proceeds to success instead of answering 400; the
claim as stated is false at this input. -/
theorem recordVotes_array_votes_cex :
    typeofIsObject (JsVal.arr []) = true ∧
    validPayload [("artist", JsVal.str "A"), ("votes", JsVal.arr [])] = true ∧
    (recordVotes none "t0" [("artist", JsVal.str "A"), ("votes", JsVal.arr [])]
      ⟨⟨none, [], [], [], []⟩, []⟩).1 = RVResp.success :=
  ⟨rfl, rfl, rfl⟩

/-- C9 amended: /record-votes answers 400 Invalid payload with no state
change whenever the artist field is absent or the empty string, or the
votes field is absent, null, or of non-object runtime type (strings and
other primitives); a JSON array, being of object type, is accepted. The
concrete payload of the claim with empty artist and empty votes object is
rejected with no state change. -/
theorem recordVotes_validation (failAt : Option FailPoint) (ts : String)
    (body : List (String × JsVal)) (st : RVState) :
    (validPayload body = false → recordVotes failAt ts body st = (RVResp.invalid, st)) ∧
    (body.lookup "artist" = none → recordVotes failAt ts body st = (RVResp.invalid, st)) ∧
    (body.lookup "artist" = some (JsVal.str "") →
      recordVotes failAt ts body st = (RVResp.invalid, st)) ∧
    (body.lookup "votes" = none → recordVotes failAt ts body st = (RVResp.invalid, st)) ∧
    (body.lookup "votes" = some JsVal.null →
      recordVotes failAt ts body st = (RVResp.invalid, st)) ∧
    (∀ s, body.lookup "votes" = some (JsVal.str s) →
      recordVotes failAt ts body st = (RVResp.invalid, st)) ∧
    recordVotes failAt ts [("artist", JsVal.str ""), ("votes", JsVal.obj [])] st
      = (RVResp.invalid, st) := by
  refine ⟨?_, ?_, ?_, ?_, ?_, ?_, ?_⟩
  · intro h
    unfold recordVotes
    rw [h]
    rfl
  · intro h
    unfold recordVotes validPayload
    rw [h]
    rfl
  · intro h
    unfold recordVotes validPayload
    rw [h]
    rfl
  · intro h
    unfold recordVotes validPayload
    rw [h]
    simp [truthy]
  · intro h
    unfold recordVotes validPayload
    rw [h]
    simp [truthy]
  · intro s h
    unfold recordVotes validPayload
    rw [h]
    simp [truthy, typeofIsObject]
  · unfold recordVotes
    rfl

/-- Witness for C9: the validation theorem applied to a concrete body
lacking a votes field. -/
theorem recordVotes_validation_witness :
    validPayload [("artist", JsVal.str "")] = false ∧
    recordVotes none "t0" [("artist", JsVal.str "")] ⟨⟨none, [], [], [], []⟩, []⟩
      = (RVResp.invalid, ⟨⟨none, [], [], [], []⟩, []⟩) :=
  ⟨rfl, (recordVotes_validation none "t0" [("artist", JsVal.str "")]
    ⟨⟨none, [], [], [], []⟩, []⟩).1 rfl⟩

/-- C2 counterexample: a successful /record-votes run against a ledger
whose existing header row is OLD leaves that stale header in place, and
the stale header differs from the expected TIMESTAMP, ARTIST, roster
header; the claim that a stale header is overwritten is false at this
input. -/
theorem recordVotes_header_stale_cex :
    (recordVotesAux none "t0" "a" [] ⟨⟨none, [], ["alice"], [], []⟩, [[JsVal.str "OLD"]]⟩).1
      = RVResp.success ∧
    (recordVotesAux none "t0" "a" [] ⟨⟨none, [], ["alice"], [], []⟩,
        [[JsVal.str "OLD"]]⟩).2.rows.headD [] = [JsVal.str "OLD"] ∧
    headersFor ⟨none, [], ["alice"], [], []⟩
      = [JsVal.str "TIMESTAMP", JsVal.str "ARTIST", JsVal.str "alice"] ∧
    ([JsVal.str "OLD"] : List JsVal)
      ≠ [JsVal.str "TIMESTAMP", JsVal.str "ARTIST", JsVal.str "alice"] := by
  refine ⟨rfl, rfl, rfl, fun h => ?_⟩
  have hlen := congrArg List.length h
  simp at hlen

/-- C2 amended: the header write is conditional on absence only; a
successful run on an empty ledger writes exactly the expected header
followed by the new row, while a run on a non-empty ledger leaves the
existing first row unchanged whether or not it is stale. -/
theorem recordVotes_header_conditional (ts artist : String)
    (votes : List (String × JsVal)) (st : RVState) :
    (recordVotesAux none ts artist votes st).1 = RVResp.success ∧
    (st.rows = [] →
      ∃ row, (recordVotesAux none ts artist votes st).2.rows = [headersFor st.kv, row]) ∧
    (st.rows ≠ [] →
      (recordVotesAux none ts artist votes st).2.rows.headD [] = st.rows.headD []) := by
  rw [recordVotesAux_none_eq]
  refine ⟨rfl, ?_, ?_⟩
  · intro h
    refine ⟨rowFor ts (rvOrig artist st.kv) (allUsers st.kv.guests st.kv.host)
      (fillVotes (allUsers st.kv.guests st.kv.host) votes), ?_⟩
    simp [rvSuccessState, h]
  · intro h
    cases hrows : st.rows with
    | nil => exact absurd hrows h
    | cons r rs => simp [rvSuccessState, hrows]

/-- Witness for C2: the empty-ledger branch applied to a concrete state. -/
theorem recordVotes_header_conditional_witness :
    ((⟨⟨none, [], ["alice"], [], []⟩, []⟩ : RVState).rows = []) ∧
    ∃ row, (recordVotesAux none "t0" "a" [] ⟨⟨none, [], ["alice"], [], []⟩, []⟩).2.rows
      = [headersFor ⟨none, [], ["alice"], [], []⟩, row] :=
  ⟨rfl, (recordVotes_header_conditional "t0" "a" []
    ⟨⟨none, [], ["alice"], [], []⟩, []⟩).2.1 rfl⟩

/-- C8: every injected outbound-call failure either yields the generic 500
Failed to record votes response or the call was not executed on that path
and the run is unchanged; in particular when the row append fails after
the header write on an empty ledger, the final state keeps the updated
header, no data row, and the already persisted vote record. -/
theorem recordVotes_failure_no_rollback (ts artist : String)
    (votes : List (String × JsVal)) (st : RVState) :
    (∀ fp : FailPoint,
      (recordVotesAux (some fp) ts artist votes st).1 = RVResp.failure ∨
      recordVotesAux (some fp) ts artist votes st = recordVotesAux none ts artist votes st) ∧
    (st.rows = [] →
      (recordVotesAux (some FailPoint.append) ts artist votes st).1 = RVResp.failure ∧
      (recordVotesAux (some FailPoint.append) ts artist votes st).2.rows = [headersFor st.kv] ∧
      ((recordVotesAux (some FailPoint.append) ts artist votes st).2.kv.votes).lookup artist
        = some (rvRecord ts artist votes st.kv)) := by
  constructor
  · intro fp
    cases fp with
    | readOrder => left; rfl
    | readNames =>
      cases hfo : firstObjOriginal artist (st.kv.artistOrder.getD []) with
      | none =>
        left
        unfold recordVotesAux
        simp [hfo]
      | some o =>
        right
        unfold recordVotesAux
        simp [hfo]
    | readRoster =>
      left
      unfold recordVotesAux
      simp
    | kvSet =>
      left
      unfold recordVotesAux
      simp
    | sheetGet =>
      left
      unfold recordVotesAux
      simp
    | headerUpdate =>
      cases hrows : st.rows with
      | nil =>
        left
        unfold recordVotesAux
        simp [hrows]
      | cons r rs =>
        right
        unfold recordVotesAux
        simp [hrows]
    | append =>
      left
      rw [recordVotesAux_append_fail_eq]
  · intro hrows
    rw [recordVotesAux_append_fail_eq]
    refine ⟨rfl, ?_, ?_⟩
    · simp [hrows]
    · exact lookup_setKey_self _ _ _

/-- Witness for C8: the append-failure branch applied to a concrete empty
ledger. -/
theorem recordVotes_failure_no_rollback_witness :
    ((⟨⟨none, [], ["a"], [], []⟩, []⟩ : RVState).rows = []) ∧
    ((recordVotesAux (some FailPoint.append) "t0" "art" []
        ⟨⟨none, [], ["a"], [], []⟩, []⟩).1 = RVResp.failure ∧
     (recordVotesAux (some FailPoint.append) "t0" "art" []
        ⟨⟨none, [], ["a"], [], []⟩, []⟩).2.rows = [headersFor ⟨none, [], ["a"], [], []⟩] ∧
     ((recordVotesAux (some FailPoint.append) "t0" "art" []
        ⟨⟨none, [], ["a"], [], []⟩, []⟩).2.kv.votes).lookup "art"
        = some (rvRecord "t0" "art" [] ⟨none, [], ["a"], [], []⟩)) :=
  ⟨rfl, (recordVotes_failure_no_rollback "t0" "art" [] ⟨⟨none, [], ["a"], [], []⟩, []⟩).2 rfl⟩

/-- C1: when the submitted votes cover k of the N roster participants with
distinct keys all in the roster and k smaller than N, the persisted vote
record holds exactly N entries: every submitted vote unchanged and every
missing roster participant defaulted to no. -/
theorem recordVotes_roster_fill (ts artist : String) (votes : List (String × JsVal))
    (st : RVState)
    (hkeys : (votes.map Prod.fst).Nodup)
    (hsub : ∀ k ∈ votes.map Prod.fst, k ∈ allUsers st.kv.guests st.kv.host)
    (hlt : votes.length < (allUsers st.kv.guests st.kv.host).length) :
    ∃ rec : VoteRecord,
      ((recordVotesAux none ts artist votes st).2.kv.votes).lookup artist = some rec ∧
      rec.votes.length = (allUsers st.kv.guests st.kv.host).length ∧
      (∀ k v, votes.lookup k = some v → rec.votes.lookup k = some v) ∧
      (∀ u ∈ allUsers st.kv.guests st.kv.host, u ∉ votes.map Prod.fst →
        rec.votes.lookup u = some (JsVal.str "no")) := by
  rw [recordVotesAux_none_eq]
  refine ⟨rvRecord ts artist votes st.kv, lookup_setKey_self _ _ _, ?_, ?_, ?_⟩
  · exact fillVotes_length _ votes (allUsers_nodup _ _) hkeys hsub
  · intro k v hkv
    exact fillVotes_lookup_left _ votes (allUsers_nodup _ _) k v hkv
  · intro u hu hnot
    have hkm : keyMem votes u = false := by
      cases hkm : keyMem votes u
      · rfl
      · exact absurd ((keyMem_iff_mem_keys votes u).1 hkm) hnot
    exact fillVotes_lookup_default _ votes (allUsers_nodup _ _) u hu hkm

/-- Witness for C1: the roster-fill theorem applied to one submitted vote
against a three-member roster. -/
theorem recordVotes_roster_fill_witness :
    (((([("a", JsVal.str "yes")] : List (String × JsVal)).map Prod.fst)).Nodup) ∧
    (∀ k ∈ (([("a", JsVal.str "yes")] : List (String × JsVal)).map Prod.fst), k ∈ allUsers ["b", "a"] ["c"]) ∧
    ([("a", JsVal.str "yes")].length < (allUsers ["b", "a"] ["c"]).length) ∧
    ∃ rec : VoteRecord,
      ((recordVotesAux none "t0" "art" [("a", JsVal.str "yes")]
          ⟨⟨none, [], ["b", "a"], ["c"], []⟩, []⟩).2.kv.votes).lookup "art" = some rec ∧
      rec.votes.length = (allUsers ["b", "a"] ["c"]).length ∧
      (∀ k v, [("a", JsVal.str "yes")].lookup k = some v → rec.votes.lookup k = some v) ∧
      (∀ u ∈ allUsers ["b", "a"] ["c"], u ∉ (([("a", JsVal.str "yes")] : List (String × JsVal)).map Prod.fst) →
        rec.votes.lookup u = some (JsVal.str "no")) :=
  ⟨by decide, by decide, by decide,
    recordVotes_roster_fill "t0" "art" [("a", JsVal.str "yes")]
      ⟨⟨none, [], ["b", "a"], ["c"], []⟩, []⟩ (by decide) (by decide) (by decide)⟩

theorem lookup_filter_ne (m : List (String × α)) (e u : String) (h : u ≠ e) :
    (m.filter (fun p => !(p.1 == e))).lookup u = m.lookup u := by
  induction m with
  | nil => rfl
  | cons p ps ih =>
    obtain ⟨a, b⟩ := p
    by_cases ha : a = e
    · subst ha
      have h1 : (u == a) = false := by simpa [beq_eq_false_iff_ne]
      simp only [List.filter_cons, beq_self_eq_true, Bool.not_true, Bool.false_eq_true,
        if_false, List.lookup, h1, ih]
    · have h2 : ((a == e)) = false := by simpa [beq_eq_false_iff_ne]
      simp only [List.filter_cons, h2, Bool.not_false, if_true, List.lookup, ih]

/-- C10: a submitted vote for an identifier outside the roster is kept
unchanged in the persisted vote record, while the appended ledger row
consists of the timestamp, the display name and one cell per roster
member only, and is unchanged if the extra entry is removed from the
submission, so the record and the row can disagree on the voter set. -/
theorem recordVotes_extra_vote (ts artist e : String) (v : JsVal)
    (votes : List (String × JsVal)) (st : RVState)
    (he : e ∉ allUsers st.kv.guests st.kv.host)
    (hv : votes.lookup e = some v) :
    ∃ rec : VoteRecord,
      ((recordVotesAux none ts artist votes st).2.kv.votes).lookup artist = some rec ∧
      rec.votes.lookup e = some v ∧
      (∃ orig : String,
        (recordVotesAux none ts artist votes st).2.rows.getLast?
          = some (JsVal.str ts :: JsVal.str orig ::
              (allUsers st.kv.guests st.kv.host).map
                (fun u => ((fillVotes (allUsers st.kv.guests st.kv.host) votes).lookup u).getD
                  JsVal.null))) ∧
      ((allUsers st.kv.guests st.kv.host).map
          (fun u => ((fillVotes (allUsers st.kv.guests st.kv.host) votes).lookup u).getD
            JsVal.null)
        = (allUsers st.kv.guests st.kv.host).map
          (fun u => ((fillVotes (allUsers st.kv.guests st.kv.host)
              (votes.filter (fun p => !(p.1 == e)))).lookup u).getD JsVal.null)) := by
  rw [recordVotesAux_none_eq]
  refine ⟨rvRecord ts artist votes st.kv, lookup_setKey_self _ _ _, ?_, ?_, ?_⟩
  · rw [show (rvRecord ts artist votes st.kv).votes
        = fillVotes (allUsers st.kv.guests st.kv.host) votes from rfl]
    rw [fillVotes_lookup_outside _ votes (allUsers_nodup _ _) e he]
    exact hv
  · refine ⟨rvOrig artist st.kv, ?_⟩
    show ((if st.rows.isEmpty then [headersFor st.kv] else st.rows) ++ [rowFor ts _ _ _]).getLast?
      = _
    rw [List.getLast?_concat]
    rfl
  · apply List.map_congr_left
    intro u hu
    have hue : u ≠ e := fun hc => he (hc ▸ hu)
    rw [fillVotes_lookup_mem _ votes (allUsers_nodup _ _) u hu,
      fillVotes_lookup_mem _ _ (allUsers_nodup _ _) u hu,
      lookup_filter_ne votes e u hue]

/-- Witness for C10: the extra-vote theorem applied to a submission whose
only vote is for an identifier outside the one-member roster. -/
theorem recordVotes_extra_vote_witness :
    ("zz" ∉ allUsers ["a"] []) ∧
    (([("zz", JsVal.str "yes")] : List (String × JsVal)).lookup "zz" = some (JsVal.str "yes")) ∧
    ∃ rec : VoteRecord,
      ((recordVotesAux none "t0" "art" [("zz", JsVal.str "yes")]
          ⟨⟨none, [], ["a"], [], []⟩, [[JsVal.str "H"]]⟩).2.kv.votes).lookup "art" = some rec ∧
      rec.votes.lookup "zz" = some (JsVal.str "yes") ∧
      (∃ orig : String,
        (recordVotesAux none "t0" "art" [("zz", JsVal.str "yes")]
            ⟨⟨none, [], ["a"], [], []⟩, [[JsVal.str "H"]]⟩).2.rows.getLast?
          = some (JsVal.str "t0" :: JsVal.str orig ::
              (allUsers ["a"] []).map
                (fun u => ((fillVotes (allUsers ["a"] [])
                    [("zz", JsVal.str "yes")]).lookup u).getD JsVal.null))) ∧
      ((allUsers ["a"] []).map
          (fun u => ((fillVotes (allUsers ["a"] [])
              [("zz", JsVal.str "yes")]).lookup u).getD JsVal.null)
        = (allUsers ["a"] []).map
          (fun u => ((fillVotes (allUsers ["a"] [])
              (([("zz", JsVal.str "yes")] : List (String × JsVal)).filter
                (fun p => !(p.1 == "zz")))).lookup u).getD JsVal.null)) :=
  ⟨by decide, rfl,
    recordVotes_extra_vote "t0" "art" "zz" (JsVal.str "yes") [("zz", JsVal.str "yes")]
      ⟨⟨none, [], ["a"], [], []⟩, [[JsVal.str "H"]]⟩ (by decide) rfl⟩

theorem artistInfo_regen (cmp : String → String → Bool) (sheetRows : List (List String))
    (kv : KV) (data : List ArtistRow)
    (hempty : orderAbsentOrEmpty kv = true)
    (hfetch : fetchGoogleSheet sheetRows = Except.ok data) :
    artistInfo cmp sheetRows kv
      = (Except.ok ⟨(sortCmp cmp (data.map (·.safe))).map OrderEntry.str,
            buildNames data, buildTracks data⟩,
         { kv with artistOrder := some ((sortCmp cmp (data.map (·.safe))).map OrderEntry.str),
                   artistNames := buildNames data }) := by
  unfold artistInfo
  rw [hfetch]
  simp [hempty]

theorem artistInfo_stored (cmp : String → String → Bool) (sheetRows : List (List String))
    (kv : KV) (ord : List OrderEntry) (data : List ArtistRow)
    (hord : kv.artistOrder = some ord) (hne : ord ≠ [])
    (hfetch : fetchGoogleSheet sheetRows = Except.ok data) :
    artistInfo cmp sheetRows kv
      = (Except.ok ⟨ord, buildNames data, buildTracks data⟩, kv) := by
  unfold artistInfo
  rw [hfetch]
  have hempty : orderAbsentOrEmpty kv = false := by
    unfold orderAbsentOrEmpty
    rw [hord]
    simpa [List.isEmpty_iff]
  simp [hempty, hord]

/-- C3 counterexample: a sheet with two rows for the same display name X
derives the key list X, X with a duplicate, and the generated and
persisted order has two entries, so it cannot be a permutation of a list
holding exactly one safeKey per unique display name; the claim as stated
is false at this input. -/
theorem artistInfo_duplicate_cex :
    fetchGoogleSheet [["ARTIST"], ["X"], ["X"]]
      = Except.ok [⟨"X", "X", []⟩, ⟨"X", "X", []⟩] ∧
    dedupKeys ["X", "X"] = ["X"] ∧
    (artistInfo (fun _ _ => true) [["ARTIST"], ["X"], ["X"]] ⟨none, [], [], [], []⟩).1
      = Except.ok ⟨[OrderEntry.str "X", OrderEntry.str "X"], [("X", "X")], [("X", [])]⟩ ∧
    (artistInfo (fun _ _ => true) [["ARTIST"], ["X"], ["X"]] ⟨none, [], [], [], []⟩).2.artistOrder
      = some [OrderEntry.str "X", OrderEntry.str "X"] ∧
    ¬ ([OrderEntry.str "X", OrderEntry.str "X"].Perm [OrderEntry.str (safeKey "X")]) := by
  refine ⟨rfl, rfl, rfl, rfl, fun h => ?_⟩
  have hlen := h.length_eq
  simp at hlen

/-- C3 amended: with no stored order, /artist-info generates, persists and
returns an order that is a comparator-sort rearrangement (a permutation,
for every comparator) of the derived key list, which holds one safeKey
per data row with a non-empty display name in row order, duplicates
included, and persists the derived name map alongside. -/
theorem artistInfo_generates_permutation (cmp : String → String → Bool)
    (sheetRows : List (List String)) (kv : KV) (data : List ArtistRow)
    (hempty : orderAbsentOrEmpty kv = true)
    (hfetch : fetchGoogleSheet sheetRows = Except.ok data) :
    ∃ ord : List String,
      (artistInfo cmp sheetRows kv).1
        = Except.ok ⟨ord.map OrderEntry.str, buildNames data, buildTracks data⟩ ∧
      (artistInfo cmp sheetRows kv).2
        = { kv with artistOrder := some (ord.map OrderEntry.str),
                    artistNames := buildNames data } ∧
      ord.Perm (data.map (·.safe)) := by
  refine ⟨sortCmp cmp (data.map (·.safe)), ?_, ?_, sortCmp_perm _ _⟩
  · rw [artistInfo_regen cmp sheetRows kv data hempty hfetch]
  · rw [artistInfo_regen cmp sheetRows kv data hempty hfetch]

/-- Witness for C3: the generation theorem applied to a two-artist sheet
and an empty store. -/
theorem artistInfo_generates_permutation_witness :
    (orderAbsentOrEmpty ⟨none, [], [], [], []⟩ = true) ∧
    (fetchGoogleSheet [["ARTIST"], ["A"], ["B"]]
      = Except.ok [⟨"A", "A", []⟩, ⟨"B", "B", []⟩]) ∧
    ∃ ord : List String,
      (artistInfo (fun _ _ => true) [["ARTIST"], ["A"], ["B"]] ⟨none, [], [], [], []⟩).1
        = Except.ok ⟨ord.map OrderEntry.str,
            buildNames [⟨"A", "A", []⟩, ⟨"B", "B", []⟩],
            buildTracks [⟨"A", "A", []⟩, ⟨"B", "B", []⟩]⟩ ∧
      (artistInfo (fun _ _ => true) [["ARTIST"], ["A"], ["B"]] ⟨none, [], [], [], []⟩).2
        = { (⟨none, [], [], [], []⟩ : KV) with
              artistOrder := some (ord.map OrderEntry.str),
              artistNames := buildNames [⟨"A", "A", []⟩, ⟨"B", "B", []⟩] } ∧
      ord.Perm ([⟨"A", "A", []⟩, ⟨"B", "B", []⟩].map (ArtistRow.safe)) :=
  ⟨rfl, rfl, artistInfo_generates_permutation (fun _ _ => true) [["ARTIST"], ["A"], ["B"]]
    ⟨none, [], [], [], []⟩ [⟨"A", "A", []⟩, ⟨"B", "B", []⟩] rfl rfl⟩

/-- C4: when a non-empty order is stored, /artist-info returns it
unchanged and writes nothing; and two consecutive calls from an
absent-or-empty order store return the same order, the first generating
it and the second echoing it. -/
theorem artistInfo_stable_order :
    (∀ (cmp : String → String → Bool) (sheetRows : List (List String)) (kv : KV)
        (ord : List OrderEntry) (data : List ArtistRow),
      kv.artistOrder = some ord → ord ≠ [] →
      fetchGoogleSheet sheetRows = Except.ok data →
      artistInfo cmp sheetRows kv = (Except.ok ⟨ord, buildNames data, buildTracks data⟩, kv)) ∧
    (∀ (cmp1 cmp2 : String → String → Bool) (sheetRows : List (List String)) (kv : KV)
        (out1 : AIOut) (kv1 : KV),
      orderAbsentOrEmpty kv = true →
      artistInfo cmp1 sheetRows kv = (Except.ok out1, kv1) →
      ∃ out2 : AIOut, (artistInfo cmp2 sheetRows kv1).1 = Except.ok out2 ∧
        out2.order = out1.order) := by
  constructor
  · intro cmp sheetRows kv ord data hord hne hfetch
    exact artistInfo_stored cmp sheetRows kv ord data hord hne hfetch
  · intro cmp1 cmp2 sheetRows kv out1 kv1 hempty hrun
    cases hfetch : fetchGoogleSheet sheetRows with
    | error err =>
      unfold artistInfo at hrun
      rw [hfetch] at hrun
      simp at hrun
    | ok data =>
      rw [artistInfo_regen cmp1 sheetRows kv data hempty hfetch] at hrun
      have hout : Except.ok (⟨(sortCmp cmp1 (data.map (·.safe))).map OrderEntry.str,
          buildNames data, buildTracks data⟩ : AIOut) = Except.ok out1 :=
        congrArg Prod.fst hrun
      have hkv : ({ kv with
            artistOrder := some ((sortCmp cmp1 (data.map (·.safe))).map OrderEntry.str),
            artistNames := buildNames data } : KV) = kv1 :=
        congrArg Prod.snd hrun
      have hout1 : out1 = ⟨(sortCmp cmp1 (data.map (·.safe))).map OrderEntry.str,
          buildNames data, buildTracks data⟩ := by
        injection hout with h
        exact h.symm
      cases hl : sortCmp cmp1 (data.map (·.safe)) with
      | nil =>
        have hord1 : kv1.artistOrder = some [] := by
          rw [← hkv]
          simp [hl]
        have hempty1 : orderAbsentOrEmpty kv1 = true := by
          unfold orderAbsentOrEmpty
          rw [hord1]
          rfl
        have hlst : data.map (·.safe) = [] := by
          have hperm := sortCmp_perm cmp1 (data.map (·.safe))
          rw [hl] at hperm
          exact (List.Perm.nil_eq hperm).symm
        refine ⟨⟨(sortCmp cmp2 (data.map (·.safe))).map OrderEntry.str,
          buildNames data, buildTracks data⟩, ?_, ?_⟩
        · rw [artistInfo_regen cmp2 sheetRows kv1 data hempty1 hfetch]
        · rw [hout1, hl, hlst]
          simp [sortCmp]
      | cons a rest =>
        have hord1 : kv1.artistOrder
            = some ((sortCmp cmp1 (data.map (·.safe))).map OrderEntry.str) := by
          rw [← hkv]
        have hne : (sortCmp cmp1 (data.map (·.safe))).map OrderEntry.str ≠ [] := by
          rw [hl]
          simp
        refine ⟨⟨(sortCmp cmp1 (data.map (·.safe))).map OrderEntry.str,
          buildNames data, buildTracks data⟩, ?_, ?_⟩
        · rw [artistInfo_stored cmp2 sheetRows kv1
            ((sortCmp cmp1 (data.map (·.safe))).map OrderEntry.str) data hord1 hne hfetch]
        · rw [hout1]

/-- Witness for C4: the stored-order branch applied to a concrete
one-entry order. -/
theorem artistInfo_stable_order_witness :
    ((⟨some [OrderEntry.str "A"], [], [], [], []⟩ : KV).artistOrder = some [OrderEntry.str "A"]) ∧
    ([OrderEntry.str "A"] ≠ ([] : List OrderEntry)) ∧
    (fetchGoogleSheet [["ARTIST"], ["A"]] = Except.ok [⟨"A", "A", []⟩]) ∧
    artistInfo (fun _ _ => true) [["ARTIST"], ["A"]] ⟨some [OrderEntry.str "A"], [], [], [], []⟩
      = (Except.ok ⟨[OrderEntry.str "A"], buildNames [⟨"A", "A", []⟩],
          buildTracks [⟨"A", "A", []⟩]⟩, ⟨some [OrderEntry.str "A"], [], [], [], []⟩) :=
  ⟨rfl, by decide, rfl,
    artistInfo_stable_order.1 (fun _ _ => true) [["ARTIST"], ["A"]]
      ⟨some [OrderEntry.str "A"], [], [], [], []⟩ [OrderEntry.str "A"] [⟨"A", "A", []⟩]
      rfl (by decide) rfl⟩
